import Mathlib

/-!
Shallow embedding of the `winkeysafe` Go package (key custody manager for a
DPAPI-protected master key) and verification of its specification.

The repository contains several near-duplicate historical variants of the
manager; each is embedded separately and named after its source symbol:

* `New`          — `New(cipherFile, plainTextFile) (string, error)` together
                   with `GetKey`, `DestroyKey`, `validateWords`, `formatWords`,
                   `generate256BitsKey() []string` (word-list variant);
* `Get`          — `Get(cipherFile, plainTextFile) ([]byte, error)` with the
                   32-character key variant of `generate256BitsKey`;
* `AccessKeyV0`  — `AccessKey() (bool, string)` from `winkeysafe.go`, fixed
                   file names `key.dat` / `key.txt`, `secureRandomInt` based
                   generator;
* `AccessKeyV4`  — `AccessKey() ([]byte, error)` legacy variant.

Go strings and byte slices are modelled as `List Char`.  The filesystem is the
pair of the two files' contents; DPAPI and the fallible I/O calls are supplied
by an explicit environment.  Every embedded operation also returns the trace of
read / write / encrypt / decrypt effects it performed, so that claims of the
form "reads neither file" are provable.
-/

namespace Winkeysafe

/-- Go strings / byte slices are modelled as lists of characters. -/
abbrev GoStr := List Char

/-- Contents of the two key files; `none` means the file does not exist.
`cipher` is the `cipherFile` (`key.dat`), `plain` the `plainTextFile`
(`key.txt`). -/
structure FS where
  cipher : Option GoStr
  plain  : Option GoStr
deriving Repr, DecidableEq

/-- Effect events recorded by the embedded operations, in program order. -/
inductive Ev
  | readCipher
  | readPlain
  | writeCipher
  | writePlain
  | encrypt
  | decrypt
deriving Repr, DecidableEq

/-- The distinct error / message values produced by the Go code.  Each
constructor corresponds to one `fmt.Errorf` / string literal site:

* `wordsListEmpty`   — "wordsList is not initialized. Call New() before AccessKey()"
* `bothExist`        — "copy %s to a safe place and remove it from this server"
                       (also the identical text used by `Get` after migrating a
                       plaintext-only key, and the winkeysafe.go both-files message)
* `readFailed`       — "failed to read ..."
* `decryptFailed`    — "failed to decrypt ..." (DPAPI `CryptUnprotectData` rejected)
* `encryptFailed`    — "failed to encrypt ..." (DPAPI `CryptProtectData` failed)
* `writeFailed`      — "failed to save/write ..."
* `invalidWords`     — "%s must contain exactly 24 valid words from the word list"
* `invalidLength32`  — "%s must contain a key that is 32 characters" (`Get` only)
* `removeTxtWarning` — "key.txt successfully encrypted to key.dat. Remove key.txt ..."
* `keyLoaded`        — "decryption key loaded" (winkeysafe.go success message)
* `emptyMsg`         — the empty string returned by winkeysafe.go `AccessKey`
* `keyNotLoaded`     — "key not loaded into memory"
* `fatalRandFailure` — `log.Fatalf` abort in winkeysafe.go `generate256BitsKey`
* `genFailed`        — random-generation failure propagated by `AccessKeyV4`. -/
inductive Msg
  | wordsListEmpty
  | bothExist
  | readFailed
  | decryptFailed
  | encryptFailed
  | writeFailed
  | invalidWords
  | invalidLength32
  | removeTxtWarning
  | keyLoaded
  | emptyMsg
  | keyNotLoaded
  | fatalRandFailure
  | genFailed
deriving Repr, DecidableEq

/-- The environment of a run: the DPAPI primitive (machine cipher, both
directions fallible), the outcome of each fallible file operation, and the
random sources (`rand` models `math/rand` draws, `randBytes` models
`crypto/rand.Read` of single bytes, `none` being a read error). -/
structure Env where
  protect     : GoStr → Option GoStr
  unprotect   : GoStr → Option GoStr
  readCipherOk  : Bool
  readPlainOk   : Bool
  writeCipherOk : Bool
  writePlainOk  : Bool
  rand        : Nat → Nat
  randBytes   : Nat → Option (Fin 256)

/-- Result of the word-list variant `New`: the returned string, the returned
error (`none` = `nil`), the filesystem afterwards, the `secureKey` global
afterwards, and the effect trace. -/
structure MOut where
  val   : GoStr
  err   : Option Msg
  fs    : FS
  key   : Option GoStr
  trace : List Ev
deriving Repr, DecidableEq

/-- Result of the byte-returning variants (`Get`, `AccessKeyV4`): returned
bytes (`none` = `nil` slice), returned error, filesystem, trace. -/
structure BOut where
  val   : Option GoStr
  err   : Option Msg
  fs    : FS
  trace : List Ev
deriving Repr, DecidableEq

/-- Result of winkeysafe.go `AccessKey() (bool, string)`: the boolean, the
message, the filesystem, the `secureKey` global, and the trace. -/
structure AK0Out where
  ok    : Bool
  msg   : Msg
  fs    : FS
  key   : Option GoStr
  trace : List Ev
deriving Repr, DecidableEq

/-- Whitespace recognised by Go `strings.Fields` (`unicode.IsSpace` on the
ASCII range relevant here). -/
def isGoSpace (c : Char) : Bool :=
  c == ' ' || c == '\n' || c == '\t' || c == '\r' || c == '\x0b' || c == '\x0c'

/-- Worker for `fields`: accumulates the current (reversed) token. -/
def fieldsAux : GoStr → GoStr → List GoStr
  | [], acc => if acc.isEmpty then [] else [acc.reverse]
  | c :: rest, acc =>
    if isGoSpace c then
      if acc.isEmpty then fieldsAux rest [] else acc.reverse :: fieldsAux rest []
    else fieldsAux rest (c :: acc)

/-- Go `strings.Fields`: split around runs of whitespace, dropping empties. -/
def fields (s : GoStr) : List GoStr := fieldsAux s []

/-- Go `strings.Join(ws, " ")`. -/
def joinSpace : List GoStr → GoStr
  | [] => []
  | [w] => w
  | w :: ws => w ++ ' ' :: joinSpace ws

/-- Worker for `formatWords`, carrying the running word index `i`. -/
def formatWordsAux : List GoStr → Nat → GoStr
  | [], _ => []
  | w :: rest, i =>
    w ++ (if (i + 1) % 6 = 0 then ['\n'] else [' ']) ++ formatWordsAux rest (i + 1)

/-- `formatWords` of the source: after each word a newline when the 1-based
index is a multiple of 6, otherwise a space (also after the last word). -/
def formatWords (ws : List GoStr) : GoStr := formatWordsAux ws 0

/-- `validateWords`: every word must belong to the configured `wordsList`
(the source materialises `wordsList` into a set and tests membership). -/
def validateWords (wordsList : List GoStr) (words : List GoStr) : Bool :=
  words.all (fun w => wordsList.contains w)

/-- Word-list `generate256BitsKey() []string`: `nil` for an empty `wordsList`,
otherwise 24 draws `wordsList[rand.Intn(len(wordsList))]`; the `i`-th
`rand.Intn(n)` draw is modelled as `rand i % n`. -/
def generate256BitsKeyWords (wordsList : List GoStr) (rand : Nat → Nat) : List GoStr :=
  if wordsList.isEmpty then []
  else (List.range 24).map (fun i => wordsList.getD (rand i % wordsList.length) [])

/-- Character pool of `Get`'s `generate256BitsKey(size)` (the part_002
variant).  `Char.ofNat 123 / 125 / 96` are the two braces and the backquote. -/
def charactersV2 : GoStr :=
  "abcdefghijklmnopqrstuvwxyzABCDEFGHIJKLMNOPQRSTUVWXYZ0123456789!@#$%^&*()".toList
    ++ [Char.ofNat 123] ++ "[]".toList ++ [Char.ofNat 125]
    ++ ";:.,/?".toList ++ [Char.ofNat 96, '~']

/-- `Get`'s `generate256BitsKey(size)`: `size` draws of
`characters[rand.Intn(len(characters)-1-0+1)+0]`. -/
def generateKeyV2 (rand : Nat → Nat) (size : Nat) : GoStr :=
  (List.range size).map (fun i => charactersV2.getD (rand i % charactersV2.length) 'a')

/-- Character pool `charPool` of winkeysafe.go.  `Char.ofNat 123 / 125 / 39 /
96` are the braces, the apostrophe and the backquote. -/
def charPool : GoStr :=
  "abcdefghijklmnopqrstuvwxyzABCDEFGHIJKLMNOPQRSTUVWXYZ0123456789".toList
    ++ "!@#$%^&*()-_=+[]".toList ++ [Char.ofNat 123, Char.ofNat 125]
    ++ "|;:".toList ++ [Char.ofNat 39] ++ ",.<>?/".toList ++ [Char.ofNat 96, '~']

/-- `secureRandomInt(max)`: for `max <= 0` returns `(0, nil)`; otherwise reads
one byte from the CSPRNG (`r`, with `none` a read error returned verbatim) and
returns `int(b) % max`. -/
def secureRandomInt (max : Int) (r : Option (Fin 256)) : Option Int :=
  if max ≤ 0 then some 0
  else
    match r with
    | none => none
    | some b => some (((b : Nat) : Int) % max)

/-- Worker for `generate256BitsKey0`: builds `n` further characters starting
at byte-stream position `i`.  `charPool.get?` models Go's bounds-checked
indexing `charPool[randomIndex]` (out of bounds would panic). -/
def gen0From (rs : Nat → Option (Fin 256)) (i : Nat) : Nat → Option GoStr
  | 0 => some []
  | n + 1 =>
    match secureRandomInt (Int.ofNat charPool.length) (rs i) with
    | none => none
    | some idx =>
      match charPool.get? idx.toNat with
      | none => none
      | some c =>
        match gen0From rs (i + 1) n with
        | none => none
        | some rest => some (c :: rest)

/-- winkeysafe.go / part_004 `generate256BitsKey()`: 32 characters drawn from
`charPool` via `secureRandomInt(len(charPool))`; `none` models a CSPRNG read
failure (a `log.Fatalf` abort in winkeysafe.go, an error in part_004). -/
def generate256BitsKey0 (rs : Nat → Option (Fin 256)) : Option GoStr :=
  gen0From rs 0 32

/-- `New(cipherFile, plainTextFile)` of part_003, the word-list manager.
`wordsList` is the package-level configured dictionary, `key` the incoming
`secureKey` global.  The four-way match on `(fs.cipher, fs.plain)` is the
source's `if keyDatExists && keyTxtExists / if keyDatExists / if keyTxtExists /
fall-through` chain. -/
def New (wordsList : List GoStr) (env : Env) (fs : FS) (key : Option GoStr) : MOut :=
  if wordsList.length = 0 then
    ⟨[], some .wordsListEmpty, fs, key, []⟩
  else
    match fs.cipher, fs.plain with
    | some _, some _ =>
      ⟨[], some .bothExist, fs, key, []⟩
    | some enc0, none =>
      if !env.readCipherOk then ⟨[], some .readFailed, fs, key, [.readCipher]⟩
      else
        match env.unprotect enc0 with
        | none => ⟨[], some .decryptFailed, fs, key, [.readCipher, .decrypt]⟩
        | some dec => ⟨[], none, fs, some dec, [.readCipher, .decrypt]⟩
    | none, some ptxt =>
      if !env.readPlainOk then ⟨[], some .readFailed, fs, key, [.readPlain]⟩
      else
        let ws := fields ptxt
        if ws.length ≠ 24 || !validateWords wordsList ws then
          ⟨[], some .invalidWords, fs, key, [.readPlain]⟩
        else
          match env.protect (joinSpace ws) with
          | none => ⟨[], some .encryptFailed, fs, key, [.readPlain, .encrypt]⟩
          | some enc =>
            if !env.writeCipherOk then
              ⟨[], some .writeFailed, fs, key, [.readPlain, .encrypt, .writeCipher]⟩
            else
              ⟨[], none, { fs with cipher := some enc }, key,
                [.readPlain, .encrypt, .writeCipher]⟩
    | none, none =>
      let ws := generate256BitsKeyWords wordsList env.rand
      if !env.writePlainOk then ⟨[], some .writeFailed, fs, key, [.writePlain]⟩
      else
        let fs1 : FS := { fs with plain := some (joinSpace ws) }
        if !env.readPlainOk then
          ⟨[], some .readFailed, fs1, key, [.writePlain, .readPlain]⟩
        else
          match env.protect (joinSpace ws) with
          | none => ⟨[], some .encryptFailed, fs1, key, [.writePlain, .readPlain, .encrypt]⟩
          | some enc =>
            if !env.writeCipherOk then
              ⟨[], some .writeFailed, fs1, key,
                [.writePlain, .readPlain, .encrypt, .writeCipher]⟩
            else
              ⟨formatWords ws, none, { fs1 with cipher := some enc }, key,
                [.writePlain, .readPlain, .encrypt, .writeCipher]⟩

/-- `Get(cipherFile, plainTextFile)` of part_002: returns the decrypted key
bytes on the cipher-only path, migrates a 32-character plaintext key (and then
returns the same "copy %s to a safe place" error as the both-present case),
and on empty disk generates a 32-character key, persists it and returns it. -/
def Get (env : Env) (fs : FS) : BOut :=
  match fs.cipher, fs.plain with
  | some _, some _ =>
    ⟨none, some .bothExist, fs, []⟩
  | some enc0, none =>
    if !env.readCipherOk then ⟨none, some .readFailed, fs, [.readCipher]⟩
    else
      match env.unprotect enc0 with
      | none => ⟨none, some .decryptFailed, fs, [.readCipher, .decrypt]⟩
      | some dec => ⟨some dec, none, fs, [.readCipher, .decrypt]⟩
  | none, some ptxt =>
    if !env.readPlainOk then ⟨none, some .readFailed, fs, [.readPlain]⟩
    else if ptxt.length ≠ 32 then ⟨none, some .invalidLength32, fs, [.readPlain]⟩
    else
      match env.protect ptxt with
      | none => ⟨none, some .encryptFailed, fs, [.readPlain, .encrypt]⟩
      | some enc =>
        if !env.writeCipherOk then
          ⟨none, some .writeFailed, fs, [.readPlain, .encrypt, .writeCipher]⟩
        else
          ⟨none, some .bothExist, { fs with cipher := some enc },
            [.readPlain, .encrypt, .writeCipher]⟩
  | none, none =>
    let k := generateKeyV2 env.rand 32
    if !env.writePlainOk then ⟨none, some .writeFailed, fs, [.writePlain]⟩
    else
      let fs1 : FS := { fs with plain := some k }
      match env.protect k with
      | none => ⟨none, some .encryptFailed, fs1, [.writePlain, .encrypt]⟩
      | some enc =>
        if !env.writeCipherOk then
          ⟨none, some .writeFailed, fs1, [.writePlain, .encrypt, .writeCipher]⟩
        else
          ⟨some k, none, { fs1 with cipher := some enc },
            [.writePlain, .encrypt, .writeCipher]⟩

/-- `AccessKey() (bool, string)` of winkeysafe.go: fixed file names, loads
`secureKey` on the cipher-only path, warns on the plaintext-only path, and on
empty disk only logs the generated key (returning `(false, "")`).  A CSPRNG
failure during generation is a `log.Fatalf` abort, modelled as the
`fatalRandFailure` message. -/
def AccessKeyV0 (env : Env) (fs : FS) (key : Option GoStr) : AK0Out :=
  match fs.cipher, fs.plain with
  | some _, some _ =>
    ⟨false, .bothExist, fs, key, []⟩
  | some enc0, none =>
    if !env.readCipherOk then ⟨false, .readFailed, fs, key, [.readCipher]⟩
    else
      match env.unprotect enc0 with
      | none => ⟨false, .decryptFailed, fs, key, [.readCipher, .decrypt]⟩
      | some dec => ⟨true, .keyLoaded, fs, some dec, [.readCipher, .decrypt]⟩
  | none, some ptxt =>
    if !env.readPlainOk then ⟨false, .readFailed, fs, key, [.readPlain]⟩
    else
      match env.protect ptxt with
      | none => ⟨false, .encryptFailed, fs, key, [.readPlain, .encrypt]⟩
      | some enc =>
        if !env.writeCipherOk then
          ⟨false, .writeFailed, fs, key, [.readPlain, .encrypt, .writeCipher]⟩
        else
          ⟨false, .removeTxtWarning, { fs with cipher := some enc }, key,
            [.readPlain, .encrypt, .writeCipher]⟩
  | none, none =>
    match generate256BitsKey0 env.randBytes with
    | none => ⟨false, .fatalRandFailure, fs, key, []⟩
    | some k =>
      if !env.writePlainOk then ⟨false, .writeFailed, fs, key, [.writePlain]⟩
      else
        let fs1 : FS := { fs with plain := some k }
        if !env.readPlainOk then
          ⟨false, .readFailed, fs1, key, [.writePlain, .readPlain]⟩
        else
          match env.protect k with
          | none => ⟨false, .encryptFailed, fs1, key, [.writePlain, .readPlain, .encrypt]⟩
          | some enc =>
            if !env.writeCipherOk then
              ⟨false, .writeFailed, fs1, key,
                [.writePlain, .readPlain, .encrypt, .writeCipher]⟩
            else
              ⟨false, .emptyMsg, { fs1 with cipher := some enc }, key,
                [.writePlain, .readPlain, .encrypt, .writeCipher]⟩

/-- `AccessKey() ([]byte, error)` of part_004: like `AccessKeyV0` but returns
the key bytes; on the plaintext-only path it returns the plaintext together
with the remove-the-file warning error, and its generation call site (the
source assigns a two-value return to one variable) is modelled as propagating
the generator's error. -/
def AccessKeyV4 (env : Env) (fs : FS) : BOut :=
  match fs.cipher, fs.plain with
  | some _, some _ =>
    ⟨none, some .bothExist, fs, []⟩
  | some enc0, none =>
    if !env.readCipherOk then ⟨none, some .readFailed, fs, [.readCipher]⟩
    else
      match env.unprotect enc0 with
      | none => ⟨none, some .decryptFailed, fs, [.readCipher, .decrypt]⟩
      | some dec => ⟨some dec, none, fs, [.readCipher, .decrypt]⟩
  | none, some ptxt =>
    if !env.readPlainOk then ⟨none, some .readFailed, fs, [.readPlain]⟩
    else
      match env.protect ptxt with
      | none => ⟨none, some .encryptFailed, fs, [.readPlain, .encrypt]⟩
      | some enc =>
        if !env.writeCipherOk then
          ⟨none, some .writeFailed, fs, [.readPlain, .encrypt, .writeCipher]⟩
        else
          ⟨some ptxt, some .removeTxtWarning, { fs with cipher := some enc },
            [.readPlain, .encrypt, .writeCipher]⟩
  | none, none =>
    match generate256BitsKey0 env.randBytes with
    | none => ⟨none, some .genFailed, fs, []⟩
    | some k =>
      if !env.writePlainOk then ⟨none, some .writeFailed, fs, [.writePlain]⟩
      else
        let fs1 : FS := { fs with plain := some k }
        if !env.readPlainOk then
          ⟨none, some .readFailed, fs1, [.writePlain, .readPlain]⟩
        else
          match env.protect k with
          | none => ⟨none, some .encryptFailed, fs1, [.writePlain, .readPlain, .encrypt]⟩
          | some enc =>
            if !env.writeCipherOk then
              ⟨none, some .writeFailed, fs1,
                [.writePlain, .readPlain, .encrypt, .writeCipher]⟩
            else
              ⟨some k, none, { fs1 with cipher := some enc },
                [.writePlain, .readPlain, .encrypt, .writeCipher]⟩

/-- Outcome of a `GetKey` call: either the process panics (nil-pointer
dereference), or an error is returned, or the key bytes are returned. -/
inductive GetKeyRes
  | panicked
  | failed (m : Msg)
  | ok (s : GoStr)
deriving Repr, DecidableEq

/-- `GetKey` of part_003: the source calls `secureKey.Melt()` BEFORE its
`secureKey == nil` check; `Melt` on a nil `*memguard.LockedBuffer` dereferences
the embedded buffer pointer, so a nil `secureKey` panics before the check is
reached. -/
def GetKeyV3 : Option GoStr → GetKeyRes
  | none => .panicked
  | some s => .ok s

/-- `GetKey` of winkeysafe.go: checks `secureKey == nil` first and returns the
"key not loaded into memory" error, else melts, reads and re-freezes. -/
def GetKeyV0 : Option GoStr → GetKeyRes
  | none => .failed .keyNotLoaded
  | some s => .ok s

/-- `DestroyKey` of part_003: destroys the buffer and sets `secureKey = nil`
when one is loaded, otherwise does nothing; it returns normally in both
cases. -/
def DestroyKey : Option GoStr → Option GoStr
  | none => none
  | some _ => none

/-- A small concrete dictionary for concrete evaluations. -/
def wl0 : List GoStr := [['a'], ['b'], ['c']]

/-- A concrete environment: the cipher prepends a marker character, all file
operations succeed, and the random sources are constant. -/
def env0 : Env where
  protect := fun s => some ('E' :: s)
  unprotect := fun s =>
    match s with
    | 'E' :: r => some r
    | _ => none
  readCipherOk := true
  readPlainOk := true
  writeCipherOk := true
  writePlainOk := true
  rand := fun _ => 0
  randBytes := fun _ => some ⟨0, by decide⟩

/-- The concrete environment in which only the ciphertext write fails. -/
def envNoCipherWrite : Env := { env0 with writeCipherOk := false }

/-- A concrete plaintext-file content of 24 valid `wl0` words. -/
def p24 : GoStr := joinSpace (List.replicate 24 ['a'])

/-- A concrete 32-character plaintext-file content (for `Get`). -/
def p32 : GoStr := List.replicate 32 'k'

/-- Pushing an all-non-space word through `fieldsAux` just accumulates it. -/
theorem fieldsAux_append_nonspace (w : GoStr) :
    ∀ (acc s : GoStr), (∀ c ∈ w, isGoSpace c = false) →
      fieldsAux (w ++ s) acc = fieldsAux s (w.reverse ++ acc) := by
  induction w with
  | nil => intro acc s _; simp
  | cons c w ih =>
    intro acc s h
    have hc : isGoSpace c = false := h c (by simp)
    have hw : ∀ d ∈ w, isGoSpace d = false := fun d hd => h d (by simp [hd])
    simp only [List.cons_append, fieldsAux, hc, Bool.false_eq_true, if_false,
      List.append_eq]
    rw [ih (c :: acc) s hw]
    simp

/-- A space character flushes a nonempty accumulator as one field. -/
theorem fieldsAux_space_cons (c : Char) (s acc : GoStr)
    (hc : isGoSpace c = true) (hacc : acc ≠ []) :
    fieldsAux (c :: s) acc = acc.reverse :: fieldsAux s [] := by
  have : acc.isEmpty = false := by
    cases acc with
    | nil => exact absurd rfl hacc
    | cons a l => rfl
  simp [fieldsAux, hc, this]

/-- Each word of `formatWordsAux` is recovered by `fieldsAux`, for words that
are nonempty and whitespace-free. -/
theorem fieldsAux_formatWordsAux (ws : List GoStr) :
    ∀ i : Nat, (∀ w ∈ ws, w ≠ [] ∧ ∀ c ∈ w, isGoSpace c = false) →
      fieldsAux (formatWordsAux ws i) [] = ws := by
  induction ws with
  | nil => intro i _; simp [formatWordsAux, fieldsAux]
  | cons w rest ih =>
    intro i h
    obtain ⟨hw1, hw2⟩ := h w (by simp)
    have hrest : ∀ v ∈ rest, v ≠ [] ∧ ∀ c ∈ v, isGoSpace c = false :=
      fun v hv => h v (by simp [hv])
    have hrev : w.reverse ≠ [] := by
      simpa using hw1
    by_cases hmod : (i + 1) % 6 = 0
    · have : formatWordsAux (w :: rest) i = w ++ '\n' :: formatWordsAux rest (i + 1) := by
        simp [formatWordsAux, hmod]
      rw [this, fieldsAux_append_nonspace w [] _ hw2,
        fieldsAux_space_cons '\n' _ _ (by decide) (by simpa using hrev)]
      simp [ih (i + 1) hrest]
    · have : formatWordsAux (w :: rest) i = w ++ ' ' :: formatWordsAux rest (i + 1) := by
        simp [formatWordsAux, hmod]
      rw [this, fieldsAux_append_nonspace w [] _ hw2,
        fieldsAux_space_cons ' ' _ _ (by decide) (by simpa using hrev)]
      simp [ih (i + 1) hrest]

/-- Round trip between the formatter and `strings.Fields`. -/
theorem fields_formatWords (ws : List GoStr)
    (h : ∀ w ∈ ws, w ≠ [] ∧ ∀ c ∈ w, isGoSpace c = false) :
    fields (formatWords ws) = ws :=
  fieldsAux_formatWordsAux ws 0 h

/-- The generated word sequence has exactly 24 entries when the dictionary is
nonempty. -/
theorem generate256BitsKeyWords_length (wordsList : List GoStr) (rand : Nat → Nat)
    (h : wordsList ≠ []) :
    (generate256BitsKeyWords wordsList rand).length = 24 := by
  simp [generate256BitsKeyWords, List.isEmpty_iff, h]

/-- Every generated word is a member of the dictionary. -/
theorem generate256BitsKeyWords_mem (wordsList : List GoStr) (rand : Nat → Nat)
    (h : wordsList ≠ []) :
    ∀ w ∈ generate256BitsKeyWords wordsList rand, w ∈ wordsList := by
  intro w hw
  have hne : wordsList.isEmpty = false := by
    cases wordsList with
    | nil => exact absurd rfl h
    | cons a l => rfl
  simp only [generate256BitsKeyWords, hne, Bool.false_eq_true, if_false,
    List.mem_map] at hw
  obtain ⟨i, -, hi⟩ := hw
  have hlen : 0 < wordsList.length := List.length_pos.mpr h
  have hlt : rand i % wordsList.length < wordsList.length := Nat.mod_lt _ hlen
  rw [← hi, List.getD_eq_getElem _ _ hlt]
  exact List.getElem_mem hlt

/-- Path lemma: both files present (after the `wordsList` check) — `New`
refuses with the conflicting-files error and performs no effect. -/
theorem New_both (wordsList : List GoStr) (env : Env) (c p : GoStr)
    (key : Option GoStr) (hwl : ¬wordsList.length = 0) :
    New wordsList env ⟨some c, some p⟩ key =
      ⟨[], some .bothExist, ⟨some c, some p⟩, key, []⟩ := by
  simp [New, hwl]

/-- Path lemma: cipher-only, read fails. -/
theorem New_cipher_readFail (wordsList : List GoStr) (env : Env) (c : GoStr)
    (key : Option GoStr) (hwl : ¬wordsList.length = 0)
    (hr : env.readCipherOk = false) :
    New wordsList env ⟨some c, none⟩ key =
      ⟨[], some .readFailed, ⟨some c, none⟩, key, [.readCipher]⟩ := by
  simp [New, hwl, hr]

/-- Path lemma: cipher-only, DPAPI rejects the blob. -/
theorem New_cipher_decryptFail (wordsList : List GoStr) (env : Env) (c : GoStr)
    (key : Option GoStr) (hwl : ¬wordsList.length = 0)
    (hr : env.readCipherOk = true) (hu : env.unprotect c = none) :
    New wordsList env ⟨some c, none⟩ key =
      ⟨[], some .decryptFailed, ⟨some c, none⟩, key, [.readCipher, .decrypt]⟩ := by
  simp [New, hwl, hr, hu]

/-- Path lemma: cipher-only, decryption succeeds — the secret is loaded. -/
theorem New_cipher_ok (wordsList : List GoStr) (env : Env) (c d : GoStr)
    (key : Option GoStr) (hwl : ¬wordsList.length = 0)
    (hr : env.readCipherOk = true) (hu : env.unprotect c = some d) :
    New wordsList env ⟨some c, none⟩ key =
      ⟨[], none, ⟨some c, none⟩, some d, [.readCipher, .decrypt]⟩ := by
  simp [New, hwl, hr, hu]

/-- Path lemma: plaintext-only, read fails. -/
theorem New_plain_readFail (wordsList : List GoStr) (env : Env) (p : GoStr)
    (key : Option GoStr) (hwl : ¬wordsList.length = 0)
    (hr : env.readPlainOk = false) :
    New wordsList env ⟨none, some p⟩ key =
      ⟨[], some .readFailed, ⟨none, some p⟩, key, [.readPlain]⟩ := by
  simp [New, hwl, hr]

/-- Path lemma: plaintext-only, the contents fail the 24-valid-words check. -/
theorem New_plain_invalid (wordsList : List GoStr) (env : Env) (p : GoStr)
    (key : Option GoStr) (hwl : ¬wordsList.length = 0)
    (hr : env.readPlainOk = true)
    (hv : ¬(fields p).length = 24 ∨ validateWords wordsList (fields p) = false) :
    New wordsList env ⟨none, some p⟩ key =
      ⟨[], some .invalidWords, ⟨none, some p⟩, key, [.readPlain]⟩ := by
  rcases hv with hv | hv <;> simp [New, hwl, hr, hv]

/-- Path lemma: plaintext-only, valid contents, DPAPI encryption fails. -/
theorem New_plain_encryptFail (wordsList : List GoStr) (env : Env) (p : GoStr)
    (key : Option GoStr) (hwl : ¬wordsList.length = 0)
    (hr : env.readPlainOk = true)
    (h24 : (fields p).length = 24) (hvw : validateWords wordsList (fields p) = true)
    (he : env.protect (joinSpace (fields p)) = none) :
    New wordsList env ⟨none, some p⟩ key =
      ⟨[], some .encryptFailed, ⟨none, some p⟩, key, [.readPlain, .encrypt]⟩ := by
  simp [New, hwl, hr, h24, hvw, he]

/-- Path lemma: plaintext-only, valid contents, cipher write fails. -/
theorem New_plain_writeFail (wordsList : List GoStr) (env : Env) (p e : GoStr)
    (key : Option GoStr) (hwl : ¬wordsList.length = 0)
    (hr : env.readPlainOk = true)
    (h24 : (fields p).length = 24) (hvw : validateWords wordsList (fields p) = true)
    (he : env.protect (joinSpace (fields p)) = some e)
    (hw : env.writeCipherOk = false) :
    New wordsList env ⟨none, some p⟩ key =
      ⟨[], some .writeFailed, ⟨none, some p⟩, key, [.readPlain, .encrypt, .writeCipher]⟩ := by
  simp [New, hwl, hr, h24, hvw, he, hw]

/-- Path lemma: plaintext-only migration succeeds — ciphertext written, the
plaintext file untouched, and `New` returns `("", nil)` with no warning. -/
theorem New_plain_ok (wordsList : List GoStr) (env : Env) (p e : GoStr)
    (key : Option GoStr) (hwl : ¬wordsList.length = 0)
    (hr : env.readPlainOk = true)
    (h24 : (fields p).length = 24) (hvw : validateWords wordsList (fields p) = true)
    (he : env.protect (joinSpace (fields p)) = some e)
    (hw : env.writeCipherOk = true) :
    New wordsList env ⟨none, some p⟩ key =
      ⟨[], none, ⟨some e, some p⟩, key, [.readPlain, .encrypt, .writeCipher]⟩ := by
  simp [New, hwl, hr, h24, hvw, he, hw]

/-- Path lemma: empty disk, plaintext write fails. -/
theorem New_empty_writePlainFail (wordsList : List GoStr) (env : Env)
    (key : Option GoStr) (hwl : ¬wordsList.length = 0)
    (hwp : env.writePlainOk = false) :
    New wordsList env ⟨none, none⟩ key =
      ⟨[], some .writeFailed, ⟨none, none⟩, key, [.writePlain]⟩ := by
  simp [New, hwl, hwp]

/-- Path lemma: empty disk, plaintext written, read-back fails. -/
theorem New_empty_readFail (wordsList : List GoStr) (env : Env)
    (key : Option GoStr) (hwl : ¬wordsList.length = 0)
    (hwp : env.writePlainOk = true) (hr : env.readPlainOk = false) :
    New wordsList env ⟨none, none⟩ key =
      ⟨[], some .readFailed,
        ⟨none, some (joinSpace (generate256BitsKeyWords wordsList env.rand))⟩, key,
        [.writePlain, .readPlain]⟩ := by
  simp [New, hwl, hwp, hr]

/-- Path lemma: empty disk, plaintext written, DPAPI encryption fails. -/
theorem New_empty_encryptFail (wordsList : List GoStr) (env : Env)
    (key : Option GoStr) (hwl : ¬wordsList.length = 0)
    (hwp : env.writePlainOk = true) (hr : env.readPlainOk = true)
    (he : env.protect (joinSpace (generate256BitsKeyWords wordsList env.rand)) = none) :
    New wordsList env ⟨none, none⟩ key =
      ⟨[], some .encryptFailed,
        ⟨none, some (joinSpace (generate256BitsKeyWords wordsList env.rand))⟩, key,
        [.writePlain, .readPlain, .encrypt]⟩ := by
  simp [New, hwl, hwp, hr, he]

/-- Path lemma: empty disk, plaintext written, cipher write fails. -/
theorem New_empty_writeCipherFail (wordsList : List GoStr) (env : Env) (e : GoStr)
    (key : Option GoStr) (hwl : ¬wordsList.length = 0)
    (hwp : env.writePlainOk = true) (hr : env.readPlainOk = true)
    (he : env.protect (joinSpace (generate256BitsKeyWords wordsList env.rand)) = some e)
    (hw : env.writeCipherOk = false) :
    New wordsList env ⟨none, none⟩ key =
      ⟨[], some .writeFailed,
        ⟨none, some (joinSpace (generate256BitsKeyWords wordsList env.rand))⟩, key,
        [.writePlain, .readPlain, .encrypt, .writeCipher]⟩ := by
  simp [New, hwl, hwp, hr, he, hw]

/-- Path lemma: empty-disk generation succeeds — both files written, the
formatted representation returned. -/
theorem New_empty_ok (wordsList : List GoStr) (env : Env) (e : GoStr)
    (key : Option GoStr) (hwl : ¬wordsList.length = 0)
    (hwp : env.writePlainOk = true) (hr : env.readPlainOk = true)
    (he : env.protect (joinSpace (generate256BitsKeyWords wordsList env.rand)) = some e)
    (hw : env.writeCipherOk = true) :
    New wordsList env ⟨none, none⟩ key =
      ⟨formatWords (generate256BitsKeyWords wordsList env.rand), none,
        ⟨some e, some (joinSpace (generate256BitsKeyWords wordsList env.rand))⟩, key,
        [.writePlain, .readPlain, .encrypt, .writeCipher]⟩ := by
  simp [New, hwl, hwp, hr, he, hw]

/-- Path lemma: `Get` with both files present refuses without any effect. -/
theorem Get_both (env : Env) (c p : GoStr) :
    Get env ⟨some c, some p⟩ = ⟨none, some .bothExist, ⟨some c, some p⟩, []⟩ := by
  simp [Get]

/-- Path lemma: `Get`, cipher-only, DPAPI rejects the blob. -/
theorem Get_cipher_decryptFail (env : Env) (c : GoStr)
    (hr : env.readCipherOk = true) (hu : env.unprotect c = none) :
    Get env ⟨some c, none⟩ =
      ⟨none, some .decryptFailed, ⟨some c, none⟩, [.readCipher, .decrypt]⟩ := by
  simp [Get, hr, hu]

/-- Path lemma: `Get`, cipher-only, decryption succeeds — the decrypted key
bytes are returned to the caller. -/
theorem Get_cipher_ok (env : Env) (c d : GoStr)
    (hr : env.readCipherOk = true) (hu : env.unprotect c = some d) :
    Get env ⟨some c, none⟩ = ⟨some d, none, ⟨some c, none⟩, [.readCipher, .decrypt]⟩ := by
  simp [Get, hr, hu]

/-- Path lemma: `Get`, plaintext-only, 32-character contents, migration
succeeds — the ciphertext is written, the plaintext file kept, and the
"copy it to a safe place and remove it" error is returned. -/
theorem Get_plain_ok (env : Env) (p e : GoStr)
    (hr : env.readPlainOk = true) (h32 : p.length = 32)
    (he : env.protect p = some e) (hw : env.writeCipherOk = true) :
    Get env ⟨none, some p⟩ =
      ⟨none, some .bothExist, ⟨some e, some p⟩, [.readPlain, .encrypt, .writeCipher]⟩ := by
  simp [Get, hr, h32, he, hw]

/-- Path lemma: `Get`, empty disk, plaintext write fails. -/
theorem Get_empty_writePlainFail (env : Env) (hwp : env.writePlainOk = false) :
    Get env ⟨none, none⟩ = ⟨none, some .writeFailed, ⟨none, none⟩, [.writePlain]⟩ := by
  simp [Get, hwp]

/-- Path lemma: `Get`, empty disk, plaintext written, encryption fails. -/
theorem Get_empty_encryptFail (env : Env) (hwp : env.writePlainOk = true)
    (he : env.protect (generateKeyV2 env.rand 32) = none) :
    Get env ⟨none, none⟩ =
      ⟨none, some .encryptFailed, ⟨none, some (generateKeyV2 env.rand 32)⟩,
        [.writePlain, .encrypt]⟩ := by
  simp [Get, hwp, he]

/-- Path lemma: `Get`, empty disk, plaintext written, cipher write fails. -/
theorem Get_empty_writeCipherFail (env : Env) (e : GoStr) (hwp : env.writePlainOk = true)
    (he : env.protect (generateKeyV2 env.rand 32) = some e)
    (hw : env.writeCipherOk = false) :
    Get env ⟨none, none⟩ =
      ⟨none, some .writeFailed, ⟨none, some (generateKeyV2 env.rand 32)⟩,
        [.writePlain, .encrypt, .writeCipher]⟩ := by
  simp [Get, hwp, he, hw]

/-- Path lemma: `Get`, empty-disk generation succeeds. -/
theorem Get_empty_ok (env : Env) (e : GoStr) (hwp : env.writePlainOk = true)
    (he : env.protect (generateKeyV2 env.rand 32) = some e)
    (hw : env.writeCipherOk = true) :
    Get env ⟨none, none⟩ =
      ⟨some (generateKeyV2 env.rand 32), none,
        ⟨some e, some (generateKeyV2 env.rand 32)⟩,
        [.writePlain, .encrypt, .writeCipher]⟩ := by
  simp [Get, hwp, he, hw]

/-- Path lemma: winkeysafe.go `AccessKey` with both files present. -/
theorem AccessKeyV0_both (env : Env) (c p : GoStr) (key : Option GoStr) :
    AccessKeyV0 env ⟨some c, some p⟩ key =
      ⟨false, .bothExist, ⟨some c, some p⟩, key, []⟩ := by
  simp [AccessKeyV0]

/-- Path lemma: winkeysafe.go `AccessKey`, plaintext-only migration succeeds —
the warning to remove `key.txt` is returned, the plaintext file kept. -/
theorem AccessKeyV0_plain_ok (env : Env) (p e : GoStr) (key : Option GoStr)
    (hr : env.readPlainOk = true) (he : env.protect p = some e)
    (hw : env.writeCipherOk = true) :
    AccessKeyV0 env ⟨none, some p⟩ key =
      ⟨false, .removeTxtWarning, ⟨some e, some p⟩, key,
        [.readPlain, .encrypt, .writeCipher]⟩ := by
  simp [AccessKeyV0, hr, he, hw]

/-- Path lemma: part_004 `AccessKey`, cipher-only, decryption succeeds — the
decrypted key bytes are returned. -/
theorem AccessKeyV4_cipher_ok (env : Env) (c d : GoStr)
    (hr : env.readCipherOk = true) (hu : env.unprotect c = some d) :
    AccessKeyV4 env ⟨some c, none⟩ =
      ⟨some d, none, ⟨some c, none⟩, [.readCipher, .decrypt]⟩ := by
  simp [AccessKeyV4, hr, hu]

/-- Path lemma: part_004 `AccessKey`, plaintext-only migration succeeds — the
plaintext key bytes are returned together with the removal warning. -/
theorem AccessKeyV4_plain_ok (env : Env) (p e : GoStr)
    (hr : env.readPlainOk = true) (he : env.protect p = some e)
    (hw : env.writeCipherOk = true) :
    AccessKeyV4 env ⟨none, some p⟩ =
      ⟨some p, some .removeTxtWarning, ⟨some e, some p⟩,
        [.readPlain, .encrypt, .writeCipher]⟩ := by
  simp [AccessKeyV4, hr, he, hw]

/-- The formatter output of a nonempty word list is nonempty (a separator
follows every word). -/
theorem formatWords_ne_nil (ws : List GoStr) (h : ws ≠ []) : formatWords ws ≠ [] := by
  cases ws with
  | nil => exact absurd rfl h
  | cons w rest => simp [formatWords, formatWordsAux]

/-- On every disk state other than Empty, `New` returns the empty string. -/
theorem New_val_nil_of_not_empty (wordsList : List GoStr) (env : Env) (fs : FS)
    (key : Option GoStr) (h : fs.cipher ≠ none ∨ fs.plain ≠ none) :
    (New wordsList env fs key).val = [] := by
  obtain ⟨cf, pf⟩ := fs
  by_cases hwl : wordsList.length = 0
  · simp [New, hwl]
  · cases cf with
    | some c =>
      cases pf with
      | some p => rw [New_both _ _ _ _ _ hwl]
      | none =>
        cases hr : env.readCipherOk with
        | false => rw [New_cipher_readFail _ _ _ _ hwl hr]
        | true =>
          cases hu : env.unprotect c with
          | none => rw [New_cipher_decryptFail _ _ _ _ hwl hr hu]
          | some d => rw [New_cipher_ok _ _ _ _ _ hwl hr hu]
    | none =>
      cases pf with
      | none => simp at h
      | some p =>
        cases hr : env.readPlainOk with
        | false => rw [New_plain_readFail _ _ _ _ hwl hr]
        | true =>
          by_cases h24 : (fields p).length = 24
          · by_cases hvw : validateWords wordsList (fields p) = true
            · cases he : env.protect (joinSpace (fields p)) with
              | none => rw [New_plain_encryptFail _ _ _ _ hwl hr h24 hvw he]
              | some e =>
                cases hw : env.writeCipherOk with
                | false => rw [New_plain_writeFail _ _ _ _ _ hwl hr h24 hvw he hw]
                | true => rw [New_plain_ok _ _ _ _ _ hwl hr h24 hvw he hw]
            · rw [New_plain_invalid _ _ _ _ hwl hr (Or.inr (by simpa using hvw))]
          · rw [New_plain_invalid _ _ _ _ hwl hr (Or.inl h24)]

/-- Whenever every CSPRNG read succeeds, the generation loop produces `n`
in-pool characters; in particular every `charPool` access is in bounds. -/
theorem gen0From_spec (rs : Nat → Option (Fin 256)) (h : ∀ i, (rs i).isSome = true) :
    ∀ n i, ∃ k, gen0From rs i n = some k ∧ k.length = n ∧ ∀ c ∈ k, c ∈ charPool := by
  intro n
  induction n with
  | zero => intro i; exact ⟨[], rfl, rfl, by simp⟩
  | succ n ih =>
    intro i
    obtain ⟨b, hb⟩ := Option.isSome_iff_exists.mp (h i)
    obtain ⟨k, hk, hlen, hmem⟩ := ih (i + 1)
    have hpos : (0 : Int) < Int.ofNat charPool.length := by decide
    have hsri : secureRandomInt (Int.ofNat charPool.length) (rs i) =
        some (((b : Nat) : Int) % Int.ofNat charPool.length) := by
      rw [hb]
      unfold secureRandomInt
      rw [if_neg (not_le.mpr hpos)]
    have hnn : (0 : Int) ≤ ((b : Nat) : Int) % Int.ofNat charPool.length :=
      Int.emod_nonneg _ (by exact ne_of_gt hpos)
    have hlt : ((b : Nat) : Int) % Int.ofNat charPool.length < Int.ofNat charPool.length :=
      Int.emod_lt_of_pos _ hpos
    have hidx : (((b : Nat) : Int) % Int.ofNat charPool.length).toNat < charPool.length := by
      rw [Int.toNat_lt hnn]
      exact_mod_cast hlt
    have hget : charPool.get? (((b : Nat) : Int) % Int.ofNat charPool.length).toNat =
        some (charPool.get ⟨_, hidx⟩) := List.get?_eq_get hidx
    refine ⟨charPool.get ⟨_, hidx⟩ :: k, ?_, by simp [hlen], ?_⟩
    · simp only [gen0From, hsri, hget, hk]
    · intro c hc
      rcases List.mem_cons.mp hc with hc | hc
      · rw [hc]; exact List.get_mem charPool _ hidx
      · exact hmem c hc

/-- C2: with both key files present, every materialize variant fails with the
conflicting-key-files error, reads neither file, writes neither file (empty
effect trace), and leaves the filesystem and the loaded key handle
unchanged. -/
theorem c2_both_files_refused (wordsList : List GoStr) (env : Env) (c p : GoStr)
    (key : Option GoStr) (hwl : ¬wordsList.length = 0) :
    New wordsList env ⟨some c, some p⟩ key =
      ⟨[], some .bothExist, ⟨some c, some p⟩, key, []⟩ ∧
    Get env ⟨some c, some p⟩ = ⟨none, some .bothExist, ⟨some c, some p⟩, []⟩ ∧
    AccessKeyV0 env ⟨some c, some p⟩ key =
      ⟨false, .bothExist, ⟨some c, some p⟩, key, []⟩ ∧
    AccessKeyV4 env ⟨some c, some p⟩ = ⟨none, some .bothExist, ⟨some c, some p⟩, []⟩ := by
  refine ⟨New_both _ _ _ _ _ hwl, Get_both _ _ _, AccessKeyV0_both _ _ _ _, ?_⟩
  simp [AccessKeyV4]

/-- Witness for C2 at a concrete both-files state. -/
theorem c2_both_files_refused_witness :
    New wl0 env0 ⟨some ['x'], some ['y']⟩ none =
      ⟨[], some .bothExist, ⟨some ['x'], some ['y']⟩, none, []⟩ ∧
    Get env0 ⟨some ['x'], some ['y']⟩ =
      ⟨none, some .bothExist, ⟨some ['x'], some ['y']⟩, []⟩ ∧
    AccessKeyV0 env0 ⟨some ['x'], some ['y']⟩ none =
      ⟨false, .bothExist, ⟨some ['x'], some ['y']⟩, none, []⟩ ∧
    AccessKeyV4 env0 ⟨some ['x'], some ['y']⟩ =
      ⟨none, some .bothExist, ⟨some ['x'], some ['y']⟩, []⟩ :=
  c2_both_files_refused wl0 env0 ['x'] ['y'] none (by decide)

/-- C5: with no key loaded, part_003's `GetKey` dereferences the nil
`secureKey` in `Melt()` before its nil check and panics, while winkeysafe.go's
`GetKey` (and the part_003 doc comment, which promises an error) returns the
key-not-loaded error.  The claim matches the documented intent; the part_003
code is a slip. -/
theorem c5_retrieve_before_load :
    GetKeyV3 none = .panicked ∧ GetKeyV0 none = .failed .keyNotLoaded :=
  ⟨rfl, rfl⟩

/-- C9: `DestroyKey` on an unloaded key is a no-op that returns normally,
`DestroyKey` is idempotent, and after `DestroyKey` a retrieve through the
nil-checking `GetKey` fails with key-not-loaded — but part_003's own `GetKey`
panics instead (same nil-`Melt` slip as C5). -/
theorem c9_destroy_idempotent_retrieve_after :
    DestroyKey none = none ∧
    (∀ k : Option GoStr, DestroyKey (DestroyKey k) = DestroyKey k) ∧
    (∀ k : Option GoStr, GetKeyV0 (DestroyKey k) = .failed .keyNotLoaded) ∧
    (∀ k : Option GoStr, GetKeyV3 (DestroyKey k) = .panicked) := by
  refine ⟨rfl, ?_, ?_, ?_⟩ <;> intro k <;> cases k <;> rfl

/-- C10: `secureRandomInt` is total and in range — for positive `max` with a
successful byte read it returns the byte modulo `max`, which lies in
`[0, max)`; for `max ≤ 0` it returns `(0, nil)`.  Consequently
`generate256BitsKey` (when all CSPRNG reads succeed) indexes `charPool` in
bounds and returns exactly 32 characters, each drawn from the pool. -/
theorem c10_random_generation_safety :
    (∀ (max : Int) (b : Fin 256), 0 < max →
      secureRandomInt max (some b) = some (((b : Nat) : Int) % max) ∧
      0 ≤ ((b : Nat) : Int) % max ∧ ((b : Nat) : Int) % max < max) ∧
    (∀ (max : Int) (r : Option (Fin 256)), max ≤ 0 → secureRandomInt max r = some 0) ∧
    (∀ rs : Nat → Option (Fin 256), (∀ i, (rs i).isSome = true) →
      ∃ k, generate256BitsKey0 rs = some k ∧ k.length = 32 ∧ ∀ c ∈ k, c ∈ charPool) := by
  refine ⟨?_, ?_, ?_⟩
  · intro max b hmax
    refine ⟨?_, Int.emod_nonneg _ (ne_of_gt hmax), Int.emod_lt_of_pos _ hmax⟩
    unfold secureRandomInt
    rw [if_neg (not_le.mpr hmax)]
  · intro max r hmax
    unfold secureRandomInt
    rw [if_pos hmax]
  · intro rs h
    exact gen0From_spec rs h 32 0

/-- Witness for C10 at concrete inputs. -/
theorem c10_random_generation_safety_witness :
    secureRandomInt 5 (some (7 : Fin 256)) = some 2 ∧
    secureRandomInt (-3) none = some 0 ∧
    ∃ k, generate256BitsKey0 (fun _ => some 0) = some k ∧ k.length = 32 ∧
      ∀ c ∈ k, c ∈ charPool := by
  refine ⟨?_, c10_random_generation_safety.2.1 (-3) none (by decide),
    c10_random_generation_safety.2.2 (fun _ => some 0) (fun i => rfl)⟩
  have h := (c10_random_generation_safety.1 5 (7 : Fin 256) (by decide)).1
  rw [h]
  decide

/-- C1 counterexample: on a ciphertext-only disk state, `Get` returns the
decrypted secret bytes to the caller, refuting "on the ciphertext-only and
plaintext-only paths no plaintext is ever returned". -/
theorem c1_counterexample :
    (FS.mk (some ['E', 's']) none).cipher ≠ none ∧
    (FS.mk (some ['E', 's']) none).plain = none ∧
    (Get env0 ⟨some ['E', 's'], none⟩).val = some ['s'] := by
  decide

/-- C1 (amended): `New` returns a nonempty plaintext representation only on
the Empty disk state and there, on success, it returns exactly the freshly
generated formatted representation; `Get` additionally returns the decrypted
secret on the ciphertext-only path, and the legacy `AccessKey` (part_004)
additionally returns the plaintext on the plaintext-only path. -/
theorem c1_plaintext_return_behavior (wordsList : List GoStr) (env : Env)
    (fs : FS) (key : Option GoStr) (c d p e : GoStr) :
    ((New wordsList env fs key).val ≠ [] → fs.cipher = none ∧ fs.plain = none) ∧
    (fs.cipher = none → fs.plain = none → (New wordsList env fs key).err = none →
      (New wordsList env fs key).val =
        formatWords (generate256BitsKeyWords wordsList env.rand) ∧
      (New wordsList env fs key).val ≠ []) ∧
    (env.readCipherOk = true → env.unprotect c = some d →
      (Get env ⟨some c, none⟩).val = some d) ∧
    (env.readPlainOk = true → env.protect p = some e → env.writeCipherOk = true →
      (AccessKeyV4 env ⟨none, some p⟩).val = some p) := by
  refine ⟨?_, ?_, ?_, ?_⟩
  · intro hval
    by_cases hc : fs.cipher = none
    · by_cases hp : fs.plain = none
      · exact ⟨hc, hp⟩
      · exact absurd (New_val_nil_of_not_empty _ _ _ _ (Or.inr hp)) hval
    · exact absurd (New_val_nil_of_not_empty _ _ _ _ (Or.inl hc)) hval
  · intro hc hp herr
    obtain ⟨cf, pf⟩ := fs
    cases cf with
    | some _ => simp at hc
    | none =>
      cases pf with
      | some _ => simp at hp
      | none =>
        by_cases hwl : wordsList.length = 0
        · rw [New] at herr
          simp [hwl] at herr
        · have hne : wordsList ≠ [] := fun hnil => hwl (by rw [hnil]; rfl)
          cases hwp : env.writePlainOk with
          | false =>
            rw [New_empty_writePlainFail _ _ _ hwl hwp] at herr
            simp at herr
          | true =>
            cases hr : env.readPlainOk with
            | false =>
              rw [New_empty_readFail _ _ _ hwl hwp hr] at herr
              simp at herr
            | true =>
              cases he2 : env.protect
                  (joinSpace (generate256BitsKeyWords wordsList env.rand)) with
              | none =>
                rw [New_empty_encryptFail _ _ _ hwl hwp hr he2] at herr
                simp at herr
              | some e2 =>
                cases hw : env.writeCipherOk with
                | false =>
                  rw [New_empty_writeCipherFail _ _ _ _ hwl hwp hr he2 hw] at herr
                  simp at herr
                | true =>
                  rw [New_empty_ok _ _ _ _ hwl hwp hr he2 hw]
                  refine ⟨rfl, formatWords_ne_nil _ ?_⟩
                  intro hgen
                  have hlen := generate256BitsKeyWords_length wordsList env.rand hne
                  rw [hgen] at hlen
                  simp at hlen
  · intro hr hu
    rw [Get_cipher_ok env c d hr hu]
  · intro hr hpe hw
    rw [AccessKeyV4_plain_ok env p e hr hpe hw]

/-- Witness for the amended C1 at concrete inputs. -/
theorem c1_plaintext_return_behavior_witness :
    (New wl0 env0 ⟨none, none⟩ none).val =
      formatWords (generate256BitsKeyWords wl0 env0.rand) ∧
    (New wl0 env0 ⟨none, none⟩ none).val ≠ [] ∧
    (Get env0 ⟨some ['E', 'k'], none⟩).val = some ['k'] ∧
    (AccessKeyV4 env0 ⟨none, some ['p']⟩).val = some ['p'] := by
  obtain ⟨-, h2, h3, h4⟩ :=
    c1_plaintext_return_behavior wl0 env0 ⟨none, none⟩ none ['E', 'k'] ['k'] ['p']
      ('E' :: ['p'])
  obtain ⟨h2a, h2b⟩ := h2 rfl rfl (by decide)
  exact ⟨h2a, h2b, h3 rfl (by decide), h4 rfl (by decide) rfl⟩

/-- C3 counterexample: on the ciphertext-only path with successful decryption,
`Get` returns the plaintext secret to the caller and loads nothing into any
secure handle, refuting "loads the Secret into the SecureHandle and returns no
plaintext" for `Get`. -/
theorem c3_counterexample :
    (Get env0 ⟨some ['E', 'q'], none⟩).err = none ∧
    (Get env0 ⟨some ['E', 'q'], none⟩).val ≠ none := by
  decide

/-- C3 (amended): on a ciphertext-only disk, `New` on successful decryption
loads the secret into `secureKey` and returns no plaintext, and on a rejected
blob fails with the platform-crypto error leaving disk and key state
unchanged; `Get` instead returns the decrypted secret on success (no handle is
loaded) and fails the same way on rejection, also leaving the disk
unchanged. -/
theorem c3_cipher_only_behavior (wordsList : List GoStr) (env : Env) (c d : GoStr)
    (key : Option GoStr) (hwl : ¬wordsList.length = 0) (hr : env.readCipherOk = true) :
    (env.unprotect c = some d →
      New wordsList env ⟨some c, none⟩ key =
        ⟨[], none, ⟨some c, none⟩, some d, [.readCipher, .decrypt]⟩) ∧
    (env.unprotect c = none →
      New wordsList env ⟨some c, none⟩ key =
        ⟨[], some .decryptFailed, ⟨some c, none⟩, key, [.readCipher, .decrypt]⟩) ∧
    (env.unprotect c = some d →
      Get env ⟨some c, none⟩ = ⟨some d, none, ⟨some c, none⟩, [.readCipher, .decrypt]⟩) ∧
    (env.unprotect c = none →
      Get env ⟨some c, none⟩ =
        ⟨none, some .decryptFailed, ⟨some c, none⟩, [.readCipher, .decrypt]⟩) :=
  ⟨fun hu => New_cipher_ok _ _ _ _ _ hwl hr hu,
   fun hu => New_cipher_decryptFail _ _ _ _ hwl hr hu,
   fun hu => Get_cipher_ok _ _ _ hr hu,
   fun hu => Get_cipher_decryptFail _ _ hr hu⟩

/-- Witness for the amended C3: a decryptable and a rejected blob. -/
theorem c3_cipher_only_behavior_witness :
    New wl0 env0 ⟨some ['E', 'k'], none⟩ none =
      ⟨[], none, ⟨some ['E', 'k'], none⟩, some ['k'], [.readCipher, .decrypt]⟩ ∧
    New wl0 env0 ⟨some ['Z'], none⟩ none =
      ⟨[], some .decryptFailed, ⟨some ['Z'], none⟩, none, [.readCipher, .decrypt]⟩ ∧
    Get env0 ⟨some ['Z'], none⟩ =
      ⟨none, some .decryptFailed, ⟨some ['Z'], none⟩, [.readCipher, .decrypt]⟩ :=
  ⟨(c3_cipher_only_behavior wl0 env0 ['E', 'k'] ['k'] none (by decide) rfl).1 (by decide),
   (c3_cipher_only_behavior wl0 env0 ['Z'] ['k'] none (by decide) rfl).2.1 (by decide),
   (c3_cipher_only_behavior wl0 env0 ['Z'] ['k'] none (by decide) rfl).2.2.2 (by decide)⟩

/-- C4 counterexample: a successful plaintext-only migration through `New`
returns `("", nil)` — plain success with no `PlaintextStillPresent` warning
condition of any kind. -/
theorem c4_counterexample :
    (New wl0 env0 ⟨none, some p24⟩ none).err = none ∧
    (New wl0 env0 ⟨none, some p24⟩ none).val = [] := by
  decide

/-- C4 (amended): on a valid plaintext-only state, every variant encrypts the
contents, writes the ciphertext file and keeps the plaintext file; `Get` and
winkeysafe.go's `AccessKey` return an explicit warning telling the operator to
remove the plaintext file, but `New` returns plain success with no warning. -/
theorem c4_plain_only_migration (wordsList : List GoStr) (env : Env)
    (p q r e1 e2 e3 : GoStr) (key : Option GoStr) (hwl : ¬wordsList.length = 0)
    (hr : env.readPlainOk = true) (hw : env.writeCipherOk = true) :
    ((fields p).length = 24 → validateWords wordsList (fields p) = true →
      env.protect (joinSpace (fields p)) = some e1 →
      New wordsList env ⟨none, some p⟩ key =
        ⟨[], none, ⟨some e1, some p⟩, key, [.readPlain, .encrypt, .writeCipher]⟩) ∧
    (q.length = 32 → env.protect q = some e2 →
      Get env ⟨none, some q⟩ =
        ⟨none, some .bothExist, ⟨some e2, some q⟩,
          [.readPlain, .encrypt, .writeCipher]⟩) ∧
    (env.protect r = some e3 →
      AccessKeyV0 env ⟨none, some r⟩ key =
        ⟨false, .removeTxtWarning, ⟨some e3, some r⟩, key,
          [.readPlain, .encrypt, .writeCipher]⟩) :=
  ⟨fun h24 hvw he => New_plain_ok _ _ _ _ _ hwl hr h24 hvw he hw,
   fun h32 he => Get_plain_ok _ _ _ hr h32 he hw,
   fun he => AccessKeyV0_plain_ok _ _ _ _ hr he hw⟩

/-- Witness for the amended C4 at concrete plaintext contents. -/
theorem c4_plain_only_migration_witness :
    New wl0 env0 ⟨none, some p24⟩ none =
      ⟨[], none, ⟨some ('E' :: p24), some p24⟩, none,
        [.readPlain, .encrypt, .writeCipher]⟩ ∧
    Get env0 ⟨none, some p32⟩ =
      ⟨none, some .bothExist, ⟨some ('E' :: p32), some p32⟩,
        [.readPlain, .encrypt, .writeCipher]⟩ ∧
    AccessKeyV0 env0 ⟨none, some ['r']⟩ none =
      ⟨false, .removeTxtWarning, ⟨some ['E', 'r'], some ['r']⟩, none,
        [.readPlain, .encrypt, .writeCipher]⟩ := by
  obtain ⟨h1, h2, h3⟩ :=
    c4_plain_only_migration wl0 env0 p24 p32 ['r'] ('E' :: p24) ('E' :: p32) ['E', 'r']
      none (by decide) rfl rfl
  exact ⟨h1 (by decide) (by decide) (by decide), h2 (by decide) rfl, h3 rfl⟩

/-- C6: on the Empty-disk generation path (with the plaintext write
succeeding), the effect trace on success is exactly `writePlain` before
`writeCipher` with both files present afterwards, and on any failure after
the plaintext write the resulting disk state is PlaintextOnly — the plaintext
file present and the ciphertext file absent — never Empty.  Both for `New`
and for `Get`. -/
theorem c6_generation_ordering (wordsList : List GoStr) (env : Env)
    (key : Option GoStr) (hwl : ¬wordsList.length = 0)
    (hwp : env.writePlainOk = true) :
    ((New wordsList env ⟨none, none⟩ key).err = none →
      (New wordsList env ⟨none, none⟩ key).trace =
        [.writePlain, .readPlain, .encrypt, .writeCipher] ∧
      (New wordsList env ⟨none, none⟩ key).fs.plain ≠ none ∧
      (New wordsList env ⟨none, none⟩ key).fs.cipher ≠ none) ∧
    ((New wordsList env ⟨none, none⟩ key).err ≠ none →
      (New wordsList env ⟨none, none⟩ key).fs.plain ≠ none ∧
      (New wordsList env ⟨none, none⟩ key).fs.cipher = none) ∧
    ((Get env ⟨none, none⟩).err = none →
      (Get env ⟨none, none⟩).trace = [.writePlain, .encrypt, .writeCipher] ∧
      (Get env ⟨none, none⟩).fs.plain ≠ none ∧
      (Get env ⟨none, none⟩).fs.cipher ≠ none) ∧
    ((Get env ⟨none, none⟩).err ≠ none →
      (Get env ⟨none, none⟩).fs.plain ≠ none ∧
      (Get env ⟨none, none⟩).fs.cipher = none) := by
  refine ⟨?_, ?_, ?_, ?_⟩
  · intro herr
    cases hr : env.readPlainOk with
    | false =>
      rw [New_empty_readFail _ _ _ hwl hwp hr] at herr
      simp at herr
    | true =>
      cases he : env.protect (joinSpace (generate256BitsKeyWords wordsList env.rand)) with
      | none =>
        rw [New_empty_encryptFail _ _ _ hwl hwp hr he] at herr
        simp at herr
      | some e =>
        cases hw : env.writeCipherOk with
        | false =>
          rw [New_empty_writeCipherFail _ _ _ _ hwl hwp hr he hw] at herr
          simp at herr
        | true =>
          rw [New_empty_ok _ _ _ _ hwl hwp hr he hw]
          exact ⟨rfl, by simp, by simp⟩
  · intro herr
    cases hr : env.readPlainOk with
    | false =>
      rw [New_empty_readFail _ _ _ hwl hwp hr]
      exact ⟨by simp, rfl⟩
    | true =>
      cases he : env.protect (joinSpace (generate256BitsKeyWords wordsList env.rand)) with
      | none =>
        rw [New_empty_encryptFail _ _ _ hwl hwp hr he]
        exact ⟨by simp, rfl⟩
      | some e =>
        cases hw : env.writeCipherOk with
        | false =>
          rw [New_empty_writeCipherFail _ _ _ _ hwl hwp hr he hw]
          exact ⟨by simp, rfl⟩
        | true =>
          rw [New_empty_ok _ _ _ _ hwl hwp hr he hw] at herr
          simp at herr
  · intro herr
    cases he : env.protect (generateKeyV2 env.rand 32) with
    | none =>
      rw [Get_empty_encryptFail env hwp he] at herr
      simp at herr
    | some e =>
      cases hw : env.writeCipherOk with
      | false =>
        rw [Get_empty_writeCipherFail env e hwp he hw] at herr
        simp at herr
      | true =>
        rw [Get_empty_ok env e hwp he hw]
        exact ⟨rfl, by simp, by simp⟩
  · intro herr
    cases he : env.protect (generateKeyV2 env.rand 32) with
    | none =>
      rw [Get_empty_encryptFail env hwp he]
      exact ⟨by simp, rfl⟩
    | some e =>
      cases hw : env.writeCipherOk with
      | false =>
        rw [Get_empty_writeCipherFail env e hwp he hw]
        exact ⟨by simp, rfl⟩
      | true =>
        rw [Get_empty_ok env e hwp he hw] at herr
        simp at herr

/-- Witness for C6: a fully succeeding run and a run whose ciphertext write
fails after the plaintext write succeeded. -/
theorem c6_generation_ordering_witness :
    (New wl0 env0 ⟨none, none⟩ none).trace =
      [Ev.writePlain, Ev.readPlain, Ev.encrypt, Ev.writeCipher] ∧
    (New wl0 env0 ⟨none, none⟩ none).fs.plain ≠ none ∧
    (New wl0 env0 ⟨none, none⟩ none).fs.cipher ≠ none ∧
    (New wl0 envNoCipherWrite ⟨none, none⟩ none).fs.plain ≠ none ∧
    (New wl0 envNoCipherWrite ⟨none, none⟩ none).fs.cipher = none := by
  obtain ⟨h1, -, -, -⟩ := c6_generation_ordering wl0 env0 none (by decide) rfl
  obtain ⟨-, h2, -, -⟩ := c6_generation_ordering wl0 envNoCipherWrite none (by decide) rfl
  obtain ⟨a, b, c⟩ := h1 (by decide)
  obtain ⟨d, e⟩ := h2 (by decide)
  exact ⟨a, b, c, d, e⟩

/-- C7: on the plaintext-only path, a representation whose whitespace token
count differs from 24 or containing a token outside the dictionary fails with
the invalid-representation error (and no file is touched beyond the read);
a representation of exactly 24 dictionary tokens passes validation — `New`
never reports it invalid, and with the cipher and cipher-write succeeding the
call succeeds. -/
theorem c7_representation_validation (wordsList : List GoStr) (env : Env) (p : GoStr)
    (key : Option GoStr) (hwl : ¬wordsList.length = 0) (hr : env.readPlainOk = true) :
    ((¬(fields p).length = 24 ∨ validateWords wordsList (fields p) = false) →
      New wordsList env ⟨none, some p⟩ key =
        ⟨[], some .invalidWords, ⟨none, some p⟩, key, [.readPlain]⟩) ∧
    ((fields p).length = 24 → validateWords wordsList (fields p) = true →
      (New wordsList env ⟨none, some p⟩ key).err ≠ some .invalidWords) ∧
    ((fields p).length = 24 → validateWords wordsList (fields p) = true →
      ∀ e, env.protect (joinSpace (fields p)) = some e → env.writeCipherOk = true →
        (New wordsList env ⟨none, some p⟩ key).err = none) := by
  refine ⟨fun hv => New_plain_invalid _ _ _ _ hwl hr hv, ?_, ?_⟩
  · intro h24 hvw
    cases he : env.protect (joinSpace (fields p)) with
    | none =>
      rw [New_plain_encryptFail _ _ _ _ hwl hr h24 hvw he]
      simp
    | some e =>
      cases hw : env.writeCipherOk with
      | false =>
        rw [New_plain_writeFail _ _ _ _ _ hwl hr h24 hvw he hw]
        simp
      | true =>
        rw [New_plain_ok _ _ _ _ _ hwl hr h24 hvw he hw]
        simp
  · intro h24 hvw e he hw
    rw [New_plain_ok _ _ _ _ _ hwl hr h24 hvw he hw]

/-- Witness for C7: a one-token file is rejected, a 24-valid-word file is
accepted. -/
theorem c7_representation_validation_witness :
    New wl0 env0 ⟨none, some ['z']⟩ none =
      ⟨[], some .invalidWords, ⟨none, some ['z']⟩, none, [.readPlain]⟩ ∧
    (New wl0 env0 ⟨none, some p24⟩ none).err = none := by
  refine ⟨(c7_representation_validation wl0 env0 ['z'] none (by decide) rfl).1
    (Or.inl (by decide)), ?_⟩
  exact (c7_representation_validation wl0 env0 p24 none (by decide) rfl).2.2
    (by decide) (by decide) ('E' :: p24) (by decide) rfl

/-- C8: every generated secret is a 24-word sequence drawn from the
dictionary, and decoding its encoded representation recovers it exactly —
splitting `formatWords` output (whose line wrap every 6 words is whitespace)
with `strings.Fields` returns the original word sequence; more generally this
round trip holds for every word sequence drawn from the dictionary.  The
dictionary words are assumed nonempty and whitespace-free, as words are. -/
theorem c8_encode_decode_roundtrip (wordsList : List GoStr) (rand : Nat → Nat)
    (hne : wordsList ≠ [])
    (hwords : ∀ w ∈ wordsList, w ≠ [] ∧ ∀ c ∈ w, isGoSpace c = false) :
    (generate256BitsKeyWords wordsList rand).length = 24 ∧
    (∀ w ∈ generate256BitsKeyWords wordsList rand, w ∈ wordsList) ∧
    fields (formatWords (generate256BitsKeyWords wordsList rand)) =
      generate256BitsKeyWords wordsList rand ∧
    (∀ ws : List GoStr, (∀ w ∈ ws, w ∈ wordsList) → fields (formatWords ws) = ws) := by
  have hmem := generate256BitsKeyWords_mem wordsList rand hne
  refine ⟨generate256BitsKeyWords_length wordsList rand hne, hmem, ?_, ?_⟩
  · exact fields_formatWords _ (fun w hw => hwords w (hmem w hw))
  · intro ws hws
    exact fields_formatWords ws (fun w hw => hwords w (hws w hw))

/-- Witness for C8 over the concrete dictionary `wl0`. -/
theorem c8_encode_decode_roundtrip_witness :
    (generate256BitsKeyWords wl0 (fun _ => 0)).length = 24 ∧
    fields (formatWords (generate256BitsKeyWords wl0 (fun _ => 0))) =
      generate256BitsKeyWords wl0 (fun _ => 0) := by
  obtain ⟨h1, -, h3, -⟩ :=
    c8_encode_decode_roundtrip wl0 (fun _ => 0) (by decide) (by decide)
  exact ⟨h1, h3⟩

end Winkeysafe
